import Mathlib

/-!
Verification of the AutoSaveWithAI plugin core (filename pipeline, provider
client, debounced auto-save orchestration).

Python strings are modelled as `List Char`; the helpers below transcribe the
corresponding Python string operations (`str.split()`, `str.strip()`,
`str.replace`, `re.sub` character-class deletion) for the ASCII inputs the
plugin handles.  Fallible operations return `Option`/`Except`; external
nondeterminism (the network, the clock, the home directory, write success)
is passed in explicitly.
-/

namespace AutoSave

/-- ASCII whitespace in the sense of Python `str.split()` / `str.strip()`. -/
def isPySpace (c : Char) : Bool :=
  c = ' ' || c = '\t' || c = '\n' || c = '\r' || c = '\x0b' || c = '\x0c'

/-- Remove characters satisfying `p` from both ends of a list
(Python `str.strip` with a character class). -/
def stripEnds (p : Char → Bool) (l : List Char) : List Char :=
  ((l.dropWhile p).reverse.dropWhile p).reverse

/-- Python `str.strip()` with no arguments (whitespace at both ends). -/
def pyStrip (l : List Char) : List Char := stripEnds isPySpace l

/-- Python `str.strip('. ')` (dots and spaces at both ends). -/
def stripDotSpace (l : List Char) : List Char :=
  stripEnds (fun c => c = '.' || c = ' ') l

/-- Characters deleted by the `re.sub` step of `sanitize_filename`
(src/AutoSaveWithAI.py line 80). -/
def winBad (c : Char) : Bool :=
  c = '<' || c = '>' || c = ':' || c = '"' || c = '|' || c = '?' || c = '*'

/-- Step 1 of `sanitize_filename` (src/AutoSaveWithAI.py line 77):
`filename.replace('/', '_').replace('\\', '_')`. -/
def repSlash (l : List Char) : List Char :=
  l.map (fun c => if c = '/' || c = '\\' then '_' else c)

/-- Step 2 of `sanitize_filename` (src/AutoSaveWithAI.py line 80):
`re.sub(r'[<>:"|?*]', '', filename)` deletes the unsafe characters. -/
def dropBad (l : List Char) : List Char :=
  l.filter (fun c => !winBad c)

/-- Step 4 of `sanitize_filename` (src/AutoSaveWithAI.py lines 86-87):
fall back to `untitled.txt` when the name is empty or is only
underscores/whitespace once underscores are removed. -/
def fallbackIfEmpty (l : List Char) : List Char :=
  if l.isEmpty || (pyStrip (l.filter (fun c => c ≠ '_'))).isEmpty
  then "untitled.txt".data else l

/-- Step 5 of `sanitize_filename` (src/AutoSaveWithAI.py lines 90-91):
append `.txt` when the name has no dot. -/
def ensureExt (l : List Char) : List Char :=
  if l.contains '.' then l else l ++ ".txt".data

/-- `sanitize_filename` (src/AutoSaveWithAI.py lines 71-93):
replace path separators with `_`, delete the Windows-unsafe set, strip
leading/trailing dots and spaces, fall back to `untitled.txt` when the result
is empty or only underscores/whitespace, and append `.txt` when no dot
remains. -/
def sanitize_filename (filename : List Char) : List Char :=
  ensureExt (fallbackIfEmpty (stripDotSpace (dropBad (repSlash filename))))

example : sanitize_filename "notes.md".data = "notes.md".data := by decide
example : sanitize_filename "filename".data = "filename.txt".data := by decide
example : sanitize_filename "///:::|||".data = "untitled.txt".data := by decide
example : sanitize_filename "  ...filename.txt...  ".data = "filename.txt".data := by decide

/-- Membership in `stripEnds p l` implies membership in `l`. -/
theorem mem_stripEnds {p : Char → Bool} {l : List Char} {c : Char}
    (h : c ∈ stripEnds p l) : c ∈ l := by
  unfold stripEnds at h
  rw [List.mem_reverse] at h
  have h1 := (List.dropWhile_sublist (l := (l.dropWhile p).reverse) p).mem h
  rw [List.mem_reverse] at h1
  exact (List.dropWhile_sublist p).mem h1

/-- Characters surviving `repSlash` are never slashes or backslashes. -/
theorem mem_repSlash {l : List Char} {c : Char} (h : c ∈ repSlash l) :
    c ≠ '/' ∧ c ≠ '\\' := by
  rw [repSlash, List.mem_map] at h
  obtain ⟨a, _, ha⟩ := h
  by_cases hsl : (a = '/' || a = '\\') = true
  · rw [if_pos hsl] at ha; subst ha; exact ⟨by decide, by decide⟩
  · rw [if_neg hsl] at ha; subst ha
    simp only [Bool.or_eq_true, decide_eq_true_eq] at hsl
    push_neg at hsl
    exact hsl

/-- Characters surviving `dropBad` come from the input and are not in the
Windows-unsafe set. -/
theorem mem_dropBad {l : List Char} {c : Char} (h : c ∈ dropBad l) :
    c ∈ l ∧ winBad c = false := by
  rw [dropBad, List.mem_filter] at h
  exact ⟨h.1, by simpa using h.2⟩

/-- `fallbackIfEmpty` yields a nonempty list. -/
theorem fallbackIfEmpty_ne_nil (l : List Char) : fallbackIfEmpty l ≠ [] := by
  rw [fallbackIfEmpty]
  split
  · decide
  · next hcond =>
    intro hnil
    rw [hnil] at hcond
    exact hcond (by decide)

/-- Characters in `fallbackIfEmpty l` come from `l` or the literal. -/
theorem mem_fallbackIfEmpty {l : List Char} {c : Char}
    (h : c ∈ fallbackIfEmpty l) : c ∈ l ∨ c ∈ "untitled.txt".data := by
  rw [fallbackIfEmpty] at h
  split at h
  · exact Or.inr h
  · exact Or.inl h

/-- `ensureExt` guarantees a dot. -/
theorem dot_mem_ensureExt (l : List Char) : '.' ∈ ensureExt l := by
  rw [ensureExt]
  split
  · next hcon => exact List.elem_iff.mp hcon
  · exact List.mem_append_right _ (by decide)

/-- Characters in `ensureExt l` come from `l` or from `.txt`. -/
theorem mem_ensureExt {l : List Char} {c : Char} (h : c ∈ ensureExt l) :
    c ∈ l ∨ c ∈ ".txt".data := by
  rw [ensureExt] at h
  split at h
  · exact Or.inl h
  · exact (List.mem_append.mp h)

/-- `ensureExt` preserves nonemptiness. -/
theorem ensureExt_ne_nil {l : List Char} (h : l ≠ []) : ensureExt l ≠ [] := by
  rw [ensureExt]
  split
  · exact h
  · simp

/-- C6: for every input string, `sanitize_filename` is non-empty, contains a
dot, and contains none of the characters `/ \ < > : " | ? *`. -/
theorem sanitize_filename_safe (x : List Char) :
    sanitize_filename x ≠ [] ∧ '.' ∈ sanitize_filename x ∧
    ∀ c ∈ sanitize_filename x,
      c ∉ ['/', '\\', '<', '>', ':', '"', '|', '?', '*'] := by
  refine ⟨?_, ?_, ?_⟩
  · exact ensureExt_ne_nil (fallbackIfEmpty_ne_nil _)
  · exact dot_mem_ensureExt _
  · intro c hc
    rcases mem_ensureExt hc with h | h
    · rcases mem_fallbackIfEmpty h with h2 | h2
      · have h3 := mem_stripEnds h2
        obtain ⟨hmem, hbad⟩ := mem_dropBad h3
        obtain ⟨hs1, hs2⟩ := mem_repSlash hmem
        rw [winBad] at hbad
        simp only [Bool.or_eq_false_iff, decide_eq_false_iff_not] at hbad
        simp only [List.mem_cons, List.not_mem_nil, or_false]
        push_neg
        exact ⟨hs1, hs2, hbad.1.1.1.1.1.1, hbad.1.1.1.1.1.2, hbad.1.1.1.1.2,
          hbad.1.1.1.2, hbad.1.1.2, hbad.1.2, hbad.2⟩
      · have hu : ∀ a ∈ "untitled.txt".data,
            a ∉ ['/', '\\', '<', '>', ':', '"', '|', '?', '*'] := by decide
        exact hu c h2
    · have ht : ∀ a ∈ ".txt".data,
          a ∉ ['/', '\\', '<', '>', ':', '"', '|', '?', '*'] := by decide
      exact ht c h

/-- Witness for C6 at a concrete input, discharging the membership
hypothesis of the safety clause. -/
theorem sanitize_filename_safe_witness :
    sanitize_filename "a/b.txt".data ≠ [] ∧
    '.' ∈ sanitize_filename "a/b.txt".data ∧
    '/' ∉ sanitize_filename "a/b.txt".data :=
  ⟨(sanitize_filename_safe "a/b.txt".data).1,
    (sanitize_filename_safe "a/b.txt".data).2.1,
    fun h => (sanitize_filename_safe "a/b.txt".data).2.2 '/' h (by decide)⟩

/-- Worker for `pySplit`; `acc` holds the current token reversed. -/
def splitAux : List Char → List Char → List (List Char)
  | [], acc => if acc.isEmpty then [] else [acc.reverse]
  | c :: rest, acc =>
    if isPySpace c then
      if acc.isEmpty then splitAux rest [] else acc.reverse :: splitAux rest []
    else splitAux rest (c :: acc)

/-- Python `text.split()` with no arguments: split on runs of whitespace,
dropping leading/trailing whitespace (src/AutoSaveWithAI.py line 67). -/
def pySplit (l : List Char) : List (List Char) := splitAux l []

/-- Python `' '.join(ws)` (src/AutoSaveWithAI.py line 68). -/
def joinSpace : List (List Char) → List Char
  | [] => []
  | [t] => t
  | t :: ts => t ++ ' ' :: joinSpace ts

/-- `extract_first_words` (src/AutoSaveWithAI.py lines 65-68):
`' '.join(text.split()[:word_limit])`. -/
def extract_first_words (text : List Char) (word_limit : Nat) : List Char :=
  joinSpace ((pySplit text).take word_limit)

/-- Every token produced by `splitAux` is nonempty and whitespace-free,
provided the accumulated partial token is whitespace-free. -/
theorem splitAux_tokens : ∀ (l acc : List Char),
    (∀ c ∈ acc, isPySpace c = false) →
    ∀ t ∈ splitAux l acc, t ≠ [] ∧ ∀ c ∈ t, isPySpace c = false := by
  intro l
  induction l with
  | nil =>
    intro acc hacc t ht
    rw [splitAux] at ht
    split at ht
    · exact absurd ht (List.not_mem_nil t)
    · next hne =>
      rw [List.mem_singleton] at ht
      subst ht
      refine ⟨fun hnil => hne ?_, fun c hc => hacc c (List.mem_reverse.mp hc)⟩
      rw [List.isEmpty_iff]
      exact List.reverse_eq_nil_iff.mp hnil
  | cons c rest ih =>
    intro acc hacc t ht
    rw [splitAux] at ht
    by_cases hsp : isPySpace c = true
    · rw [if_pos hsp] at ht
      split at ht
      · exact ih [] (by intro c hc; exact absurd hc (List.not_mem_nil c)) t ht
      · next hne =>
        rw [List.mem_cons] at ht
        rcases ht with ht | ht
        · subst ht
          refine ⟨fun hnil => hne ?_, fun a ha => hacc a (List.mem_reverse.mp ha)⟩
          rw [List.isEmpty_iff]
          exact List.reverse_eq_nil_iff.mp hnil
        · exact ih [] (by intro a ha; exact absurd ha (List.not_mem_nil a)) t ht
    · rw [if_neg hsp] at ht
      refine ih (c :: acc) ?_ t ht
      intro a ha
      rw [List.mem_cons] at ha
      rcases ha with ha | ha
      · subst ha; exact Bool.eq_false_iff.mpr hsp
      · exact hacc a ha

/-- Feeding a whitespace-free token into `splitAux` extends the accumulator. -/
theorem splitAux_token (t : List Char) (hfree : ∀ c ∈ t, isPySpace c = false) :
    ∀ (l acc : List Char), splitAux (t ++ l) acc = splitAux l (t.reverse ++ acc) := by
  induction t with
  | nil => intro l acc; simp
  | cons c t' ih =>
    intro l acc
    have hc : isPySpace c = false := hfree c (List.mem_cons_self c t')
    rw [List.cons_append, splitAux, hc]
    simp only [Bool.false_eq_true, if_false]
    rw [ih (fun a ha => hfree a (List.mem_cons_of_mem c ha)) l (c :: acc)]
    congr 1
    rw [List.reverse_cons, List.append_assoc]
    rfl

/-- A space flushes a nonempty accumulator. -/
theorem splitAux_space (l acc : List Char) (hne : acc ≠ []) :
    splitAux (' ' :: l) acc = acc.reverse :: splitAux l [] := by
  rw [splitAux]
  have : isPySpace ' ' = true := by decide
  rw [this]
  simp only [if_true]
  rw [if_neg (by simpa [List.isEmpty_iff] using hne)]

/-- Splitting the space-joined concatenation of nonempty whitespace-free
tokens recovers exactly those tokens. -/
theorem pySplit_joinSpace (ts : List (List Char))
    (hne : ∀ t ∈ ts, t ≠ []) (hfree : ∀ t ∈ ts, ∀ c ∈ t, isPySpace c = false) :
    pySplit (joinSpace ts) = ts := by
  induction ts with
  | nil => rfl
  | cons t ts ih =>
    cases ts with
    | nil =>
      show splitAux (joinSpace [t]) [] = [t]
      rw [joinSpace]
      have := splitAux_token t (hfree t (List.mem_cons_self t [])) [] []
      rw [List.append_nil] at this
      rw [this, splitAux]
      rw [if_neg (by
        simpa [List.isEmpty_iff, List.append_nil, List.reverse_eq_nil_iff] using
          hne t (List.mem_cons_self t []))]
      rw [List.append_nil, List.reverse_reverse]
    | cons t2 ts2 =>
      show splitAux (joinSpace (t :: t2 :: ts2)) [] = t :: t2 :: ts2
      have hj : joinSpace (t :: t2 :: ts2) = t ++ ' ' :: joinSpace (t2 :: ts2) := rfl
      rw [hj]
      rw [splitAux_token t (hfree t (List.mem_cons_self t _)) _ []]
      rw [List.append_nil]
      rw [splitAux_space _ _ (by
        simpa [List.reverse_eq_nil_iff] using hne t (List.mem_cons_self t _))]
      rw [List.reverse_reverse]
      congr 1
      exact ih (fun a ha => hne a (List.mem_cons_of_mem t ha))
        (fun a ha => hfree a (List.mem_cons_of_mem t ha))

/-- An all-whitespace input splits into no tokens. -/
theorem pySplit_all_space (l : List Char)
    (h : ∀ c ∈ l, isPySpace c = true) : pySplit l = [] := by
  rw [pySplit]
  induction l with
  | nil => rfl
  | cons c rest ih =>
    rw [splitAux, h c (List.mem_cons_self c rest)]
    simp only [if_true, List.isEmpty_nil]
    exact ih (fun a ha => h a (List.mem_cons_of_mem c ha))

/-- C8: `extract_first_words` yields at most `word_limit` whitespace-separated
tokens; with at most `word_limit` tokens in the input it returns the input's
tokens untruncated, rejoined with single spaces; whitespace-only (or empty)
input yields the empty string. -/
theorem extract_first_words_spec (text : List Char) (n : Nat) :
    (pySplit (extract_first_words text n)).length ≤ n ∧
    ((pySplit text).length ≤ n →
      extract_first_words text n = joinSpace (pySplit text)) ∧
    ((∀ c ∈ text, isPySpace c = true) → extract_first_words text n = []) := by
  have htok := splitAux_tokens text [] (by intro c hc; exact absurd hc (List.not_mem_nil c))
  have hroundtrip : pySplit (extract_first_words text n) = (pySplit text).take n := by
    rw [extract_first_words]
    exact pySplit_joinSpace _
      (fun t ht => (htok t (List.mem_of_mem_take ht)).1)
      (fun t ht => (htok t (List.mem_of_mem_take ht)).2)
  refine ⟨?_, ?_, ?_⟩
  · rw [hroundtrip]
    exact le_trans (List.length_take_le n _) (le_refl n)
  · intro hlen
    rw [extract_first_words, List.take_of_length_le hlen]
  · intro hws
    rw [extract_first_words, pySplit_all_space text hws, List.take_nil]
    rfl

/-- Witness for C8 at concrete inputs: a three-token text with limit `5` is
returned verbatim with single spaces, and a whitespace-only text yields the
empty string. -/
theorem extract_first_words_spec_witness :
    ((pySplit "hello  world\tfoo".data).length ≤ 5 ∧
      extract_first_words "hello  world\tfoo".data 5 =
        joinSpace (pySplit "hello  world\tfoo".data)) ∧
    extract_first_words "  \t\n ".data 3 = [] := by
  refine ⟨⟨by decide, (extract_first_words_spec "hello  world\tfoo".data 5).2.1 (by decide)⟩, ?_⟩
  exact (extract_first_words_spec "  \t\n ".data 3).2.2 (by decide)

/-- Decimal digit character for a value below ten. -/
def digitChar (n : Nat) : Char :=
  if n = 0 then '0' else if n = 1 then '1' else if n = 2 then '2'
  else if n = 3 then '3' else if n = 4 then '4' else if n = 5 then '5'
  else if n = 6 then '6' else if n = 7 then '7' else if n = 8 then '8' else '9'

/-- Worker for `toDecimal` with explicit structural fuel, so that concrete
instances reduce inside the kernel. -/
def toDecimalAux : Nat → Nat → List Char
  | 0, _ => []
  | fuel + 1, n =>
    if n < 10 then [digitChar n]
    else toDecimalAux fuel (n / 10) ++ [digitChar (n % 10)]

/-- Decimal representation of a natural number, as Python `str(n)` produces
inside `"{}-{}{}".format(...)` and `strftime`. -/
def toDecimal (n : Nat) : List Char := toDecimalAux (n + 1) n

/-- The fuel argument of `toDecimalAux` is irrelevant once sufficient. -/
theorem toDecimalAux_congr : ∀ (f₁ : Nat), ∀ (f₂ n : Nat), n < f₁ → n < f₂ →
    toDecimalAux f₁ n = toDecimalAux f₂ n := by
  intro f₁
  induction f₁ with
  | zero => intro f₂ n h; omega
  | succ f₁ ih =>
    intro f₂ n h1 h2
    cases f₂ with
    | zero => omega
    | succ f₂ =>
      rw [toDecimalAux, toDecimalAux]
      by_cases h10 : n < 10
      · rw [if_pos h10, if_pos h10]
      · rw [if_neg h10, if_neg h10]
        have hd : n / 10 < n := Nat.div_lt_self (by omega) (by omega)
        rw [ih f₂ (n / 10) (by omega) (by omega)]

/-- Unfolding equation for `toDecimal`. -/
theorem toDecimal_eq (n : Nat) :
    toDecimal n = if n < 10 then [digitChar n]
                  else toDecimal (n / 10) ++ [digitChar (n % 10)] := by
  rw [toDecimal, toDecimalAux]
  by_cases h10 : n < 10
  · rw [if_pos h10, if_pos h10]
  · rw [if_neg h10, if_neg h10]
    have hd : n / 10 < n := Nat.div_lt_self (by omega) (by omega)
    rw [toDecimalAux_congr n (n / 10 + 1) (n / 10) (by omega) (by omega)]
    rfl

/-- Every `digitChar` is an ASCII digit. -/
theorem digitChar_isDigit (m : Nat) : (digitChar m).isDigit = true := by
  unfold digitChar
  repeat' split
  all_goals decide

/-- Every character of a decimal representation is an ASCII digit. -/
theorem toDecimal_digits (n : Nat) : ∀ c ∈ toDecimal n, c.isDigit = true := by
  induction n using Nat.strong_induction_on with
  | _ n ih =>
    intro c hc
    rw [toDecimal_eq] at hc
    by_cases h10 : n < 10
    · rw [if_pos h10, List.mem_singleton] at hc
      subst hc; exact digitChar_isDigit n
    · rw [if_neg h10, List.mem_append] at hc
      rcases hc with hc | hc
      · exact ih (n / 10) (Nat.div_lt_self (by omega) (by omega)) c hc
      · rw [List.mem_singleton] at hc
        subst hc; exact digitChar_isDigit (n % 10)

/-- Length bound for the decimal representation. -/
theorem toDecimal_length_le : ∀ (k n : Nat), 1 ≤ k → n < 10 ^ k →
    (toDecimal n).length ≤ k := by
  intro k
  induction k with
  | zero => intro n h; omega
  | succ k ih =>
    intro n _ hn
    rw [toDecimal_eq]
    by_cases h10 : n < 10
    · rw [if_pos h10]; simp
    · rw [if_neg h10]
      have hk : 1 ≤ k := by
        by_contra hk0
        have : k = 0 := by omega
        subst this
        simp [pow_succ] at hn
        omega
      have hdiv : n / 10 < 10 ^ k := by
        rw [Nat.div_lt_iff_lt_mul (by omega)]
        calc n < 10 ^ (k + 1) := hn
        _ = 10 ^ k * 10 := by rw [pow_succ]
      have := ih (n / 10) hk hdiv
      rw [List.length_append]
      simp only [List.length_singleton]
      omega

/-- Inverse of `toDecimal`, used to prove injectivity. -/
def digitVal (c : Char) : Nat :=
  if c = '0' then 0 else if c = '1' then 1 else if c = '2' then 2
  else if c = '3' then 3 else if c = '4' then 4 else if c = '5' then 5
  else if c = '6' then 6 else if c = '7' then 7 else if c = '8' then 8 else 9

/-- Decimal digit list back to the number it denotes. -/
def ofDec (l : List Char) : Nat := l.foldl (fun a c => a * 10 + digitVal c) 0

theorem ofDec_append_digit (xs : List Char) (c : Char) :
    ofDec (xs ++ [c]) = ofDec xs * 10 + digitVal c := by
  rw [ofDec, ofDec, List.foldl_append]
  rfl

theorem digitVal_digitChar {m : Nat} (h : m < 10) : digitVal (digitChar m) = m := by
  interval_cases m <;> decide

/-- `ofDec` is a left inverse of `toDecimal`. -/
theorem ofDec_toDecimal (n : Nat) : ofDec (toDecimal n) = n := by
  induction n using Nat.strong_induction_on with
  | _ n ih =>
    rw [toDecimal_eq]
    by_cases h10 : n < 10
    · rw [if_pos h10]
      show ofDec ([] ++ [digitChar n]) = n
      rw [ofDec_append_digit]
      simp [ofDec, digitVal_digitChar h10]
    · rw [if_neg h10, ofDec_append_digit,
        ih (n / 10) (Nat.div_lt_self (by omega) (by omega)),
        digitVal_digitChar (Nat.mod_lt n (by omega))]
      omega

/-- `toDecimal` is injective. -/
theorem toDecimal_injective {a b : Nat} (h : toDecimal a = toDecimal b) :
    a = b := by
  have := congrArg ofDec h
  rwa [ofDec_toDecimal, ofDec_toDecimal] at this

/-- Zero-padding to width `k`, as `strftime` does for `%Y %m %d %H %M %S`. -/
def pad (k n : Nat) : List Char :=
  List.replicate (k - (toDecimal n).length) '0' ++ toDecimal n

theorem pad_length {k n : Nat} (h1 : 1 ≤ k) (h : n < 10 ^ k) :
    (pad k n).length = k := by
  rw [pad, List.length_append, List.length_replicate]
  have := toDecimal_length_le k n h1 h
  omega

theorem pad_digits (k n : Nat) : ∀ c ∈ pad k n, c.isDigit = true := by
  intro c hc
  rw [pad, List.mem_append] at hc
  rcases hc with hc | hc
  · rw [List.eq_of_mem_replicate hc]; decide
  · exact toDecimal_digits n c hc

/-- Wall-clock instant, the external input of `datetime.now()`. -/
structure DateTime where
  year : Nat
  month : Nat
  day : Nat
  hour : Nat
  minute : Nat
  second : Nat
deriving DecidableEq

/-- Field bounds under which `strftime("%Y%m%d-%H%M%S")` produces its
fixed-width zero-padded form (every real clock reading satisfies them). -/
def DateTime.InRange (t : DateTime) : Prop :=
  t.year < 10000 ∧ t.month < 100 ∧ t.day < 100 ∧ t.hour < 100 ∧
    t.minute < 100 ∧ t.second < 100

instance (t : DateTime) : Decidable t.InRange := by
  rw [DateTime.InRange]; infer_instance

/-- `datetime.now().strftime("%Y%m%d-%H%M%S")` (src/AutoSaveWithAI.py
line 103), with the instant passed in explicitly. -/
def strftimeStamp (t : DateTime) : List Char :=
  pad 4 t.year ++ pad 2 t.month ++ pad 2 t.day ++
    '-' :: (pad 2 t.hour ++ pad 2 t.minute ++ pad 2 t.second)

/-- `get_timestamp_filename` (src/AutoSaveWithAI.py lines 101-104):
`"auto-notes-{}.txt".format(timestamp)`. -/
def get_timestamp_filename (t : DateTime) : List Char :=
  "auto-notes-".data ++ strftimeStamp t ++ ".txt".data

/-- The filename built on provider success (src/AutoSaveWithAI.py lines
174-180): `"auto-notes-" + sanitize_filename(ai_filename)`. -/
def aiDerivedName (s : List Char) : List Char :=
  "auto-notes-".data ++ sanitize_filename s

/-- The timestamp-fallback shape: eight digits, `-`, six digits, `.txt`. -/
def TsForm (l : List Char) : Prop :=
  ∃ d8 d6 : List Char, d8.length = 8 ∧ d6.length = 6 ∧
    (∀ c ∈ d8, c.isDigit = true) ∧ (∀ c ∈ d6, c.isDigit = true) ∧
    l = d8 ++ '-' :: (d6 ++ ".txt".data)

/-- The formatted timestamp plus extension always has the fallback shape. -/
theorem tsForm_stamp {t : DateTime} (ht : t.InRange) :
    TsForm (strftimeStamp t ++ ".txt".data) := by
  obtain ⟨hy, hmo, hd, hh, hmi, hs⟩ := ht
  refine ⟨pad 4 t.year ++ pad 2 t.month ++ pad 2 t.day,
          pad 2 t.hour ++ pad 2 t.minute ++ pad 2 t.second, ?_, ?_, ?_, ?_, ?_⟩
  · rw [List.length_append, List.length_append,
      pad_length (by omega) (by norm_num; omega),
      pad_length (by omega) (by norm_num; omega),
      pad_length (by omega) (by norm_num; omega)]
  · rw [List.length_append, List.length_append,
      pad_length (by omega) (by norm_num; omega),
      pad_length (by omega) (by norm_num; omega),
      pad_length (by omega) (by norm_num; omega)]
  · intro c hc
    rw [List.mem_append, List.mem_append] at hc
    rcases hc with (hc | hc) | hc
    · exact pad_digits 4 t.year c hc
    · exact pad_digits 2 t.month c hc
    · exact pad_digits 2 t.day c hc
  · intro c hc
    rw [List.mem_append, List.mem_append] at hc
    rcases hc with (hc | hc) | hc
    · exact pad_digits 2 t.hour c hc
    · exact pad_digits 2 t.minute c hc
    · exact pad_digits 2 t.second c hc
  · rw [strftimeStamp]
    simp [List.append_assoc]

/-- C1 (amended): a provider-success filename coincides with a
fallback-producible filename only when the sanitized suggestion itself has
the timestamp shape (eight digits, `-`, six digits, `.txt`); moreover every
fallback filename has that shape after the shared `auto-notes-` prefix, so
the fallback does begin with the very prefix used for AI-derived names. -/
theorem naming_schemes_overlap (s : List Char) (t : DateTime)
    (ht : t.InRange) :
    TsForm (strftimeStamp t ++ ".txt".data) ∧
    (get_timestamp_filename t).take 11 = "auto-notes-".data ∧
    (aiDerivedName s = get_timestamp_filename t → TsForm (sanitize_filename s)) := by
  refine ⟨tsForm_stamp ht, ?_, ?_⟩
  · rw [get_timestamp_filename, List.append_assoc]
    have h11 : ("auto-notes-".data).length = 11 := by decide
    rw [← h11, List.take_left]
  · intro heq
    rw [aiDerivedName, get_timestamp_filename, List.append_assoc] at heq
    have := List.append_cancel_left heq
    rw [this]
    exact tsForm_stamp ht

/-- C1 counterexample: the claim as stated is false.  The provider suggestion
`20991231-235959.txt` sanitizes to itself, so the success filename equals a
filename the timestamp fallback produces, and the fallback filename begins
with the AI-name prefix `auto-notes-`. -/
theorem naming_schemes_collide_cex :
    aiDerivedName "20991231-235959.txt".data =
      get_timestamp_filename ⟨2099, 12, 31, 23, 59, 59⟩ ∧
    (get_timestamp_filename ⟨2099, 12, 31, 23, 59, 59⟩).take 11 =
      "auto-notes-".data := by decide

/-- Witness for C1 (amended) at a concrete input, discharging both
hypotheses. -/
theorem naming_schemes_overlap_witness :
    TsForm (strftimeStamp ⟨2099, 12, 31, 23, 59, 59⟩ ++ ".txt".data) ∧
    TsForm (sanitize_filename "20991231-235959.txt".data) := by
  have h := naming_schemes_overlap "20991231-235959.txt".data
    ⟨2099, 12, 31, 23, 59, 59⟩ (by decide)
  exact ⟨h.1, h.2.2 (by decide)⟩

/-- Split a dot-containing list at its last dot, returning
`(before, dot-and-after)`. -/
def splitLastDot (l : List Char) : List Char × List Char :=
  let r := l.reverse
  let after := r.takeWhile (fun c => c ≠ '.')
  let rest := r.dropWhile (fun c => c ≠ '.')
  if rest.isEmpty then (l, [])
  else ((rest.drop 1).reverse, '.' :: after.reverse)

/-- `os.path.splitext` (posixpath semantics): split at the last dot of the
basename, except when every dot of the basename is leading (hidden files
such as `.bashrc` keep their name whole). -/
def splitExt (p : List Char) : List Char × List Char :=
  let base := (p.reverse.takeWhile (fun c => c ≠ '/')).reverse
  let dirPart := p.take (p.length - base.length)
  let dots := base.takeWhile (fun c => c = '.')
  let rest := base.dropWhile (fun c => c = '.')
  if rest.contains '.' then
    (dirPart ++ dots ++ (splitLastDot rest).1, (splitLastDot rest).2)
  else (p, [])

example : splitExt "dir/a.txt".data = ("dir/a".data, ".txt".data) := by decide
example : splitExt "dir/.bashrc".data = ("dir/.bashrc".data, "".data) := by decide
example : splitExt "a.b/cd".data = ("a.b/cd".data, "".data) := by decide
example : splitExt "a.b/c.d.e".data = ("a.b/c.d".data, ".e".data) := by decide

/-- One collision candidate: `"{}-{}{}".format(base, counter, ext)`
(src/AutoSaveWithAI.py line 196). -/
def numbered (base ext : List Char) (counter : Nat) : List Char :=
  base ++ '-' :: (toDecimal counter ++ ext)

/-- The `while os.path.exists(...)` probe (src/AutoSaveWithAI.py lines
195-197), with structural fuel.  `resolvePath` supplies enough fuel that
the exhaustion branch is unreachable (`exists_free_numbered`). -/
def probeFuel (fs : List (List Char)) (base ext : List Char) :
    Nat → Nat → List Char
  | 0, counter => numbered base ext counter
  | fuel + 1, counter =>
    if numbered base ext counter ∈ fs then
      probeFuel fs base ext fuel (counter + 1)
    else numbered base ext counter

/-- Duplicate handling of `save_file_with_ai_name` (src/AutoSaveWithAI.py
lines 192-198): keep the path when it does not exist, otherwise probe
`base-1.ext, base-2.ext, …`.  The filesystem is modelled by the list `fs`
of existing paths. -/
def resolvePath (fs : List (List Char)) (p : List Char) : List Char :=
  if p ∈ fs then probeFuel fs (splitExt p).1 (splitExt p).2 (fs.length + 1) 1
  else p

/-- `numbered` is injective in its counter. -/
theorem numbered_inj {base ext : List Char} {a b : Nat}
    (h : numbered base ext a = numbered base ext b) : a = b := by
  rw [numbered, numbered] at h
  have h1 := List.append_cancel_left h
  simp only [List.cons.injEq, true_and] at h1
  exact toDecimal_injective (List.append_cancel_right h1)

/-- Pigeonhole: among the first `fs.length + 1` counters some candidate is
not an existing path. -/
theorem exists_free_numbered (fs : List (List Char)) (base ext : List Char) :
    ∃ k, 1 ≤ k ∧ k ≤ fs.length + 1 ∧ numbered base ext k ∉ fs := by
  by_contra hcon
  push_neg at hcon
  have hmap : ∀ a ∈ Finset.Icc 1 (fs.length + 1),
      numbered base ext a ∈ fs.toFinset := by
    intro a ha
    rw [Finset.mem_Icc] at ha
    exact List.mem_toFinset.mpr (hcon a ha.1 ha.2)
  have hinj : Set.InjOn (numbered base ext)
      (Finset.Icc 1 (fs.length + 1) : Finset Nat) := by
    intro a _ b _ hab
    exact numbered_inj hab
  have hcard := Finset.card_le_card_of_injOn _ hmap hinj
  rw [Nat.card_Icc] at hcard
  have := fs.toFinset_card_le
  omega

/-- `probeFuel` returns the first free candidate, given one in fuel range. -/
theorem probeFuel_spec (fs : List (List Char)) (base ext : List Char) :
    ∀ (fuel counter : Nat),
    (∃ k, counter ≤ k ∧ k < counter + fuel ∧ numbered base ext k ∉ fs) →
    ∃ m, probeFuel fs base ext fuel counter = numbered base ext m ∧
      counter ≤ m ∧ numbered base ext m ∉ fs ∧
      ∀ j, counter ≤ j → j < m → numbered base ext j ∈ fs := by
  intro fuel
  induction fuel with
  | zero =>
    intro counter h
    obtain ⟨k, h1, h2, _⟩ := h
    omega
  | succ fuel ih =>
    intro counter h
    rw [probeFuel]
    by_cases hmem : numbered base ext counter ∈ fs
    · rw [if_pos hmem]
      obtain ⟨k, hk1, hk2, hk3⟩ := h
      have hkc : k ≠ counter := fun he => hk3 (he ▸ hmem)
      obtain ⟨m, hm1, hm2, hm3, hm4⟩ :=
        ih (counter + 1) ⟨k, by omega, by omega, hk3⟩
      refine ⟨m, hm1, by omega, hm3, ?_⟩
      intro j hj1 hj2
      rcases Nat.eq_or_lt_of_le hj1 with hj | hj
      · rwa [← hj]
      · exact hm4 j hj hj2
    · rw [if_neg hmem]
      exact ⟨counter, rfl, le_refl _, hmem, fun j h1 h2 => absurd (lt_of_le_of_lt h1 h2) (lt_irrefl counter)⟩

/-- C7: path resolution keeps a non-existing path unchanged; for an existing
path it splits at the last dot and returns the first `stem-n.ext` that does
not exist; in particular `dir/a.txt` resolves to `dir/a-1.txt` against an
existing `dir/a.txt`, and to `dir/a-2.txt` when `dir/a-1.txt` also exists. -/
theorem resolvePath_spec :
    (∀ (fs : List (List Char)) (p : List Char),
      (p ∉ fs → resolvePath fs p = p) ∧
      (p ∈ fs → ∃ m, 1 ≤ m ∧
        resolvePath fs p = numbered (splitExt p).1 (splitExt p).2 m ∧
        numbered (splitExt p).1 (splitExt p).2 m ∉ fs ∧
        ∀ j, 1 ≤ j → j < m →
          numbered (splitExt p).1 (splitExt p).2 j ∈ fs)) ∧
    resolvePath ["dir/a.txt".data] "dir/a.txt".data = "dir/a-1.txt".data ∧
    resolvePath ["dir/a.txt".data, "dir/a-1.txt".data] "dir/a.txt".data =
      "dir/a-2.txt".data := by
  refine ⟨?_, by decide, by decide⟩
  intro fs p
  constructor
  · intro hmem
    rw [resolvePath, if_neg hmem]
  · intro hmem
    rw [resolvePath, if_pos hmem]
    obtain ⟨k, hk1, hk2, hk3⟩ := exists_free_numbered fs (splitExt p).1 (splitExt p).2
    obtain ⟨m, hm1, hm2, hm3, hm4⟩ := probeFuel_spec fs (splitExt p).1 (splitExt p).2
      (fs.length + 1) 1 ⟨k, hk1, by omega, hk3⟩
    exact ⟨m, hm2, hm1, hm3, hm4⟩

/-- Witness for C7 at concrete inputs, discharging the existence
hypothesis. -/
theorem resolvePath_spec_witness :
    ("dir/a.txt".data ∈ ["dir/a.txt".data]) ∧
    ∃ m, 1 ≤ m ∧
      resolvePath ["dir/a.txt".data] "dir/a.txt".data =
        numbered (splitExt "dir/a.txt".data).1 (splitExt "dir/a.txt".data).2 m ∧
      numbered (splitExt "dir/a.txt".data).1 (splitExt "dir/a.txt".data).2 m ∉
        ["dir/a.txt".data] ∧
      ∀ j, 1 ≤ j → j < m →
        numbered (splitExt "dir/a.txt".data).1 (splitExt "dir/a.txt".data).2 j ∈
          ["dir/a.txt".data] :=
  ⟨by decide,
    (resolvePath_spec.1 ["dir/a.txt".data] "dir/a.txt".data).2 (by decide)⟩

/-- Parsed JSON values as Python represents provider response envelopes. -/
inductive JVal where
  | null : JVal
  | bool : Bool → JVal
  | num : Int → JVal
  | str : List Char → JVal
  | arr : List JVal → JVal
  | obj : List (List Char × JVal) → JVal

/-- Python `dict.get(key)` over a parsed-JSON object's field list. -/
def jGet (fields : List (List Char × JVal)) (k : List Char) : Option JVal :=
  match fields with
  | [] => none
  | (k', v) :: rest => if k' = k then some v else jGet rest k

/-- Python `v[i]` for an integer index; `none` stands for the `KeyError` /
`IndexError` / `TypeError` the callers catch (indexing a string yields a
one-character string, as in Python). -/
def jIndex (i : Nat) : JVal → Option JVal
  | JVal.arr xs => xs.get? i
  | JVal.str s => (s.get? i).map (fun c => JVal.str [c])
  | _ => none

/-- Python `v[k]` for a string key; `none` stands for the caught
`KeyError` / `TypeError`. -/
def jKey (k : List Char) : JVal → Option JVal
  | JVal.obj fields => jGet fields k
  | _ => none

/-- The `response["output"][0]["content"][0]["text"]` fallback path of
`extract_response_text` (src/ai_client.py line 189). -/
def responsesFallbackPath (fields : List (List Char × JVal)) : Option JVal :=
  ((((jGet fields "output".data).bind (jIndex 0)).bind
      (jKey "content".data)).bind (jIndex 0)).bind (jKey "text".data)

/-- The `except (KeyError, IndexError, TypeError)` tail of
`extract_response_text` (src/ai_client.py lines 188-193): return the value
at the fallback path, or raise `OpenAIHTTPError` (modelled as
`Except.error`). -/
def fallbackOrError (fields : List (List Char × JVal)) : Except Unit JVal :=
  match responsesFallbackPath fields with
  | some v => Except.ok v
  | none => Except.error ()

/-- `extract_response_text` (src/ai_client.py lines 168-193): prefer the
top-level `output_text` when it is a string whose `strip()` is truthy,
otherwise fall back to `output[0].content[0].text`, raising (modelled as
`Except.error`) when that path is absent. -/
def extract_response_text (fields : List (List Char × JVal)) :
    Except Unit JVal :=
  match jGet fields "output_text".data with
  | some (JVal.str s) =>
    if (pyStrip s).isEmpty then fallbackOrError fields
    else Except.ok (JVal.str s)
  | _ => fallbackOrError fields

/-- C9 (amended): `extract_response_text` returns the top-level
`output_text` only when it is a string containing a non-whitespace
character; in every other case — `output_text` absent, not a string, empty,
or whitespace-only — it returns the value at `output[0].content[0].text`,
and fails exactly when that path is also absent. -/
theorem extract_response_text_spec (fields : List (List Char × JVal)) :
    (∀ s, jGet fields "output_text".data = some (JVal.str s) →
      (pyStrip s).isEmpty = false →
      extract_response_text fields = Except.ok (JVal.str s)) ∧
    ((∀ s, jGet fields "output_text".data = some (JVal.str s) →
        (pyStrip s).isEmpty = true) →
      extract_response_text fields = fallbackOrError fields) := by
  constructor
  · intro s hs hne
    unfold extract_response_text
    split
    · next s' heq =>
      rw [hs] at heq
      injection heq with heq2
      injection heq2 with heq3
      rw [heq3] at hne ⊢
      rw [hne]
      simp
    · next hno =>
      exact absurd hs (hno s)
  · intro hws
    unfold extract_response_text
    split
    · next s' heq =>
      rw [hws s' heq]
      simp
    · rfl

/-- Concrete envelope refuting C9 as stated: `output_text` is the non-empty
string `" "`, yet extraction falls back to `output[0].content[0].text`. -/
def c9CexFields : List (List Char × JVal) :=
  [("output_text".data, JVal.str " ".data),
   ("output".data, JVal.arr [JVal.obj
     [("content".data, JVal.arr [JVal.obj
       [("text".data, JVal.str "hi".data)]])]])]

/-- C9 counterexample: with a non-empty (whitespace-only) `output_text`
present, the code does not return it — it falls back — so the claim as
stated is false. -/
theorem extract_response_text_cex :
    jGet c9CexFields "output_text".data = some (JVal.str " ".data) ∧
    " ".data ≠ [] ∧
    extract_response_text c9CexFields = Except.ok (JVal.str "hi".data) :=
  ⟨rfl, by decide, rfl⟩

/-- Witness for C9 (amended) at concrete inputs: a top-level `output_text`
with visible content is preferred, and the counterexample envelope takes
the fallback branch. -/
theorem extract_response_text_spec_witness :
    extract_response_text [("output_text".data, JVal.str "name.md".data)] =
      Except.ok (JVal.str "name.md".data) ∧
    extract_response_text c9CexFields = fallbackOrError c9CexFields := by
  constructor
  · exact (extract_response_text_spec
      [("output_text".data, JVal.str "name.md".data)]).1 "name.md".data rfl (by decide)
  · refine (extract_response_text_spec c9CexFields).2 ?_
    intro s hs
    injection hs with h1
    injection h1 with h2
    rw [← h2]
    decide

/-- Outcome of the external `litellm.completion(**kwargs)` call: litellm
either returns a parsed response envelope or raises — transport failures,
HTTP statuses ≥ 400 and non-JSON bodies all surface as exceptions from the
library. -/
inductive CompletionOutcome where
  | transportError : CompletionOutcome
  | httpError : Nat → CompletionOutcome
  | nonJsonBody : CompletionOutcome
  | returns : JVal → CompletionOutcome

/-- The `response['choices'][0]['message']['content']` extraction
(src/AutoSaveWithAI.py line 55); `none` stands for the `KeyError` /
`IndexError` / `TypeError` raised on a missing path, and also for
`.strip()` hitting a non-string content (`AttributeError`) — all swallowed
by the surrounding `except Exception`. -/
def chatContentPath (resp : JVal) : Option (List Char) :=
  match (((jKey "choices".data resp).bind (jIndex 0)).bind
      (jKey "message".data)).bind (jKey "content".data) with
  | some (JVal.str s) => some s
  | _ => none

/-- Python truthiness of an optional string (`if not self.api_key`). -/
def optTruthy : Option (List Char) → Bool
  | some (_ :: _) => true
  | _ => false

/-- `LiteLLMClient.generate_filename` (src/AutoSaveWithAI.py lines 26-62):
return `none` when litellm is unavailable; otherwise build the prompt and
call `completion`, returning the stripped content on success; the blanket
`except Exception` maps every raised error to `none`.  `model`, `api_key`
and `api_base` only shape the outgoing request (kwargs), which the
`outcome` parameter abstracts. -/
def LiteLLMClient.generate_filename (litellmAvailable : Bool)
    (model : List Char) (api_key api_base : Option (List Char))
    (content prompt_template : List Char)
    (outcome : CompletionOutcome) : Option (List Char) :=
  if litellmAvailable then
    match outcome with
    | CompletionOutcome.returns resp => (chatContentPath resp).map pyStrip
    | _ => none
  else none

/-- C5: `LiteLLMClient.generate_filename` never propagates an error past its
boundary — a transport error, an HTTP status ≥ 400, a non-JSON body, or a
response missing the `choices[0].message.content` field each yield `none`
(the function is total, so no exception escapes in the model). -/
theorem generate_filename_never_throws (avail : Bool) (model : List Char)
    (api_key api_base : Option (List Char)) (content template : List Char) :
    LiteLLMClient.generate_filename avail model api_key api_base content
      template CompletionOutcome.transportError = none ∧
    (∀ status, 400 ≤ status →
      LiteLLMClient.generate_filename avail model api_key api_base content
        template (CompletionOutcome.httpError status) = none) ∧
    LiteLLMClient.generate_filename avail model api_key api_base content
      template CompletionOutcome.nonJsonBody = none ∧
    (∀ resp, chatContentPath resp = none →
      LiteLLMClient.generate_filename avail model api_key api_base content
        template (CompletionOutcome.returns resp) = none) := by
  refine ⟨?_, ?_, ?_, ?_⟩
  · cases avail <;> rfl
  · intro status _
    cases avail <;> rfl
  · cases avail <;> rfl
  · intro resp hresp
    cases avail <;> simp [LiteLLMClient.generate_filename, hresp]

/-- Witness for C5 at concrete inputs: an HTTP 500 and an envelope missing
the content path both produce `none`. -/
theorem generate_filename_never_throws_witness :
    LiteLLMClient.generate_filename true "gpt-4".data none none "text".data
      "p".data (CompletionOutcome.httpError 500) = none ∧
    LiteLLMClient.generate_filename true "gpt-4".data none none "text".data
      "p".data (CompletionOutcome.returns (JVal.obj [])) = none := by
  have h := generate_filename_never_throws true "gpt-4".data none none
    "text".data "p".data
  exact ⟨h.2.1 500 (by omega), h.2.2.2 (JVal.obj []) rfl⟩

/-- Modelled from the spec: `AIClient.generate_filename`, the provider
variant imported by src/tests/test_autosave_unit.py but whose definition is
not among the sources here (src/AutoSaveWithAI.py contains the LiteLLM
variant instead).  Spec §4.4: "When no API key and no API base are
configured, the client must short-circuit to `null` without attempting a
network call"; the unit tests `test_no_api_key` and `test_no_api_base` pin
the short-circuit for each missing piece individually.  The second
component of the result records whether the HTTP round trip was reached;
`net` is the network's answer when one is made. -/
def AIClient.generate_filename (clientAvailable : Bool)
    (api_key api_base : Option (List Char)) (content template : List Char)
    (net : Option (List Char)) : Option (List Char) × Bool :=
  if clientAvailable then
    if optTruthy api_key then
      if optTruthy api_base then (net.map pyStrip, true)
      else (none, false)
    else (none, false)
  else (none, false)

/-- C2: with neither an API key nor an API base configured, the client
returns `null` and no network call is attempted, whatever the network
would have answered. -/
theorem aiclient_short_circuit (avail : Bool) (content template : List Char)
    (net : Option (List Char)) :
    AIClient.generate_filename avail none none content template net =
      (none, false) := by
  cases avail <;> rfl

/-- The in-editor document (Sublime `View`) at its external boundary:
assigned path (if any), text content, live validity. -/
structure View where
  fileName : Option (List Char)
  content : List Char
  valid : Bool
deriving DecidableEq

/-- The recognized plugin settings (read fresh on every invocation). -/
structure Settings where
  save_directory : List Char
  llm_model : List Char
  prompt_template : List Char
  openai_api_key : Option (List Char)
  anthropic_api_key : Option (List Char)
  api_base : Option (List Char)
  overwrite_default_save : Bool
  auto_save_timer : Int
deriving DecidableEq

/-- Observable side effects of one pipeline run, in execution order. -/
inductive Effect where
  | makeDirs : List Char → Effect
  | errorMessage : Effect
  | writeFile : List Char → List Char → Effect
  | retarget : List Char → Effect
  | clearScratch : Effect
  | statusMessage : Effect
deriving DecidableEq

/-- Per-invocation external world: the settings snapshot, availability and
outcome of the litellm call, the clock, the home directory for `~`
expansion, and whether the filesystem write succeeds. -/
structure Env where
  settings : Settings
  litellmAvailable : Bool
  outcome : CompletionOutcome
  now : DateTime
  home : List Char
  writeOk : Bool

/-- `os.path.expanduser` for the own-home forms the plugin relies on
(`~` and `~/...`; the `~user` form is left untouched in this model). -/
def expandUser (home dir : List Char) : List Char :=
  match dir with
  | '~' :: [] => home
  | '~' :: '/' :: rest => home ++ '/' :: rest
  | _ => dir

/-- `os.path.join(dir, filename)` for the relative filenames the plugin
produces. -/
def joinPath (dir fn : List Char) : List Char :=
  if dir.isEmpty then fn
  else if dir.getLast? = some '/' then dir ++ fn
  else dir ++ '/' :: fn

/-- Result of one `save_file_with_ai_name` run: return value, the possibly
retargeted view, the effect trace, and the updated set of existing paths. -/
structure SaveResult where
  ok : Bool
  view : View
  effects : List Effect
  fs : List (List Char)

/-- API-key selection by model-name inspection
(src/AutoSaveWithAI.py lines 154-163). -/
def selectApiKey (st : Settings) : Option (List Char) :=
  if "gpt-".data.isPrefixOf st.llm_model
      || "openai/".data.isPrefixOf st.llm_model then st.openai_api_key
  else if "anthropic/".data.isPrefixOf st.llm_model then st.anthropic_api_key
  else none

/-- `save_file_with_ai_name` (src/AutoSaveWithAI.py lines 107-217):
skip documents that already have a name; abort with a user-visible error
when `save_directory` is unset; expand `~` and create the directory; skip
empty/whitespace-only content; excerpt 250 words; ask the LiteLLM client
for a name, sanitize and prefix it on success, or fall back to the
timestamp name; resolve collisions; write, retarget and clear the scratch
flag, or report a write error. -/
def save_file_with_ai_name (env : Env) (fs : List (List Char))
    (view : View) : SaveResult :=
  if view.fileName.isSome then ⟨false, view, [], fs⟩
  else if env.settings.save_directory.isEmpty then
    ⟨false, view, [Effect.errorMessage], fs⟩
  else
    let save_dir := expandUser env.home env.settings.save_directory
    if (pyStrip view.content).isEmpty then
      ⟨false, view, [Effect.makeDirs save_dir], fs⟩
    else
      let excerpt := extract_first_words view.content 250
      let ai_filename := LiteLLMClient.generate_filename env.litellmAvailable
        env.settings.llm_model (selectApiKey env.settings)
        env.settings.api_base excerpt env.settings.prompt_template env.outcome
      let filename :=
        match ai_filename with
        | some (c :: cs) => aiDerivedName (c :: cs)
        | _ => get_timestamp_filename env.now
      let full_path := joinPath save_dir filename
      let resolved := resolvePath fs full_path
      if env.writeOk then
        ⟨true, { view with fileName := some resolved },
          [Effect.makeDirs save_dir, Effect.writeFile resolved view.content,
            Effect.retarget resolved, Effect.clearScratch,
            Effect.statusMessage],
          resolved :: fs⟩
      else
        ⟨false, view, [Effect.makeDirs save_dir, Effect.errorMessage], fs⟩

/-- C10: for an unnamed document whose content is empty or whitespace-only
and a configured save directory, the run returns `false` and writes
nothing, yet its effect trace is exactly the directory creation — the
`os.makedirs` side effect precedes the empty-content check. -/
theorem empty_content_still_makes_dir (env : Env) (fs : List (List Char))
    (view : View) (hname : view.fileName = none)
    (hdir : env.settings.save_directory ≠ [])
    (hws : pyStrip view.content = []) :
    (save_file_with_ai_name env fs view).ok = false ∧
    (save_file_with_ai_name env fs view).effects =
      [Effect.makeDirs (expandUser env.home env.settings.save_directory)] ∧
    ∀ p c, Effect.writeFile p c ∉ (save_file_with_ai_name env fs view).effects := by
  rw [save_file_with_ai_name]
  rw [hname]
  simp only [Option.isSome_none, Bool.false_eq_true, if_false]
  rw [if_neg (by simpa [List.isEmpty_iff] using hdir)]
  rw [hws]
  simp only [List.isEmpty_nil, if_true]
  refine ⟨by trivial, by trivial, ?_⟩
  intro p c hmem
  rw [List.mem_singleton] at hmem
  exact absurd hmem (by simp)

/-- Settings used by the concrete traces below. -/
def cSettings : Settings :=
  ⟨"dir".data, "gpt-4".data, "p: {content}".data, none, none, none, false, 5⟩

/-- Environment used by the concrete traces below: provider fails with a
transport error, the write succeeds. -/
def cEnv : Env :=
  ⟨cSettings, true, CompletionOutcome.transportError, ⟨2025, 1, 2, 3, 4, 5⟩,
    "/home/u".data, true⟩

/-- Witness for C10 at a concrete input: whitespace-only content, configured
directory. -/
theorem empty_content_still_makes_dir_witness :
    (save_file_with_ai_name cEnv [] ⟨none, " \t".data, true⟩).ok = false ∧
    (save_file_with_ai_name cEnv [] ⟨none, " \t".data, true⟩).effects =
      [Effect.makeDirs (expandUser cEnv.home cEnv.settings.save_directory)] ∧
    Effect.writeFile "dir/x.txt".data " \t".data ∉
      (save_file_with_ai_name cEnv [] ⟨none, " \t".data, true⟩).effects :=
  ⟨(empty_content_still_makes_dir cEnv [] ⟨none, " \t".data, true⟩ rfl
      (by decide) (by decide)).1,
    (empty_content_still_makes_dir cEnv [] ⟨none, " \t".data, true⟩ rfl
      (by decide) (by decide)).2.1,
    (empty_content_still_makes_dir cEnv [] ⟨none, " \t".data, true⟩ rfl
      (by decide) (by decide)).2.2 "dir/x.txt".data " \t".data⟩

/-- Joint state of one unnamed document's view and the listener's timer
table entry for its id (`self.timers[view_id]`).  The code stores only the
flag `True`; `registered` models the presence of that entry, carrying a
ghost generation number (which arm created it) that the code never
inspects.  `runs` counts pipeline invocations made by timer callbacks and
`writes` counts completed (successful) runs; both are ghost observers. -/
structure LState where
  view : View
  registered : Option Nat
  nextGen : Nat
  fs : List (List Char)
  runs : Nat
  writes : Nat

/-- `on_modified_async` (src/AutoSaveWithAI.py lines 266-308): with a
positive configured timer and an unnamed document, (re)register the timer
entry — tagged with a fresh ghost generation — and schedule a callback;
otherwise do nothing. -/
def on_modified_async (st : Settings) (s : LState) : LState :=
  if st.auto_save_timer ≤ 0 then s
  else if s.view.fileName.isSome then s
  else { s with registered := some s.nextGen, nextGen := s.nextGen + 1 }

/-- `auto_save_callback` (src/AutoSaveWithAI.py lines 289-308), running as
the callback armed with ghost generation `g`: re-check view validity and
namelessness, then check `view_id in self.timers` — mere presence of a
timer entry; `g` is invisible to the guard, exactly as in the code — then
run the pipeline and drop the entry. -/
def auto_save_callback (env : Env) (g : Nat) (s : LState) : LState :=
  if !s.view.valid || s.view.fileName.isSome then s
  else if s.registered.isNone then s
  else
    let r := save_file_with_ai_name env s.fs s.view
    { s with view := r.view, fs := r.fs, registered := none,
             runs := s.runs + 1,
             writes := s.writes + (if r.ok then 1 else 0) }

/-- `on_close` (src/AutoSaveWithAI.py lines 310-314): drop the timer entry
for the closed view. -/
def on_close (s : LState) : LState := { s with registered := none }

/-- `on_modified_async` never touches the view, the write count, the run
count, or the filesystem. -/
theorem on_modified_async_frame (st : Settings) (s : LState) :
    (on_modified_async st s).view = s.view ∧
    (on_modified_async st s).writes = s.writes ∧
    (on_modified_async st s).runs = s.runs ∧
    (on_modified_async st s).fs = s.fs := by
  rw [on_modified_async]
  split
  · exact ⟨rfl, rfl, rfl, rfl⟩
  · split
    · exact ⟨rfl, rfl, rfl, rfl⟩
    · exact ⟨rfl, rfl, rfl, rfl⟩

/-- A successful pipeline run leaves the view named; an unsuccessful one
leaves it untouched. -/
theorem save_ok_shape (env : Env) (fs : List (List Char)) (view : View) :
    ((save_file_with_ai_name env fs view).ok = true →
      (save_file_with_ai_name env fs view).view.fileName.isSome = true) ∧
    ((save_file_with_ai_name env fs view).ok = false →
      (save_file_with_ai_name env fs view).view = view) := by
  rw [save_file_with_ai_name]
  repeat' split
  all_goals refine ⟨fun h => ?_, fun h => ?_⟩ <;> simp_all

/-- A callback on a named view is a no-op. -/
theorem callback_named (e : Env) (g : Nat) (s : LState)
    (h : s.view.fileName.isSome = true) : auto_save_callback e g s = s := by
  rw [auto_save_callback, h]
  simp

/-- Each callback either changes nothing observable, or performs exactly
one new write and leaves the view named. -/
theorem callback_step (e : Env) (g : Nat) (s : LState) :
    ((auto_save_callback e g s).writes = s.writes ∧
      (auto_save_callback e g s).view = s.view) ∨
    ((auto_save_callback e g s).writes = s.writes + 1 ∧
      (auto_save_callback e g s).view.fileName.isSome = true) := by
  rw [auto_save_callback]
  split
  · exact Or.inl ⟨rfl, rfl⟩
  · next hguard =>
    split
    · exact Or.inl ⟨rfl, rfl⟩
    · by_cases hok : (save_file_with_ai_name e s.fs s.view).ok = true
      · refine Or.inr ⟨?_, ?_⟩
        · simp [hok]
        · simp only
          exact (save_ok_shape e s.fs s.view).1 hok
      · refine Or.inl ⟨?_, ?_⟩
        · simp [Bool.eq_false_iff.mpr hok]
        · simp only
          exact (save_ok_shape e s.fs s.view).2 (Bool.eq_false_iff.mpr hok ▸ rfl)

/-- C3 (amended): at fire time the callback checks that the document is
still valid, still unnamed, and that a timer entry — any entry, not
necessarily the one created when this callback was armed — is registered
for the document id; if any check fails the callback is a complete no-op,
otherwise it invokes the pipeline. -/
theorem callback_guard (env : Env) (g : Nat) (s : LState) :
    ((s.view.valid = false ∨ s.view.fileName.isSome = true ∨
        s.registered = none) → auto_save_callback env g s = s) ∧
    (s.view.valid = true → s.view.fileName = none →
      s.registered ≠ none →
      (auto_save_callback env g s).runs = s.runs + 1) := by
  constructor
  · intro h
    rcases h with h | h | h
    · rw [auto_save_callback, h]; simp
    · rw [auto_save_callback, h]; simp
    · rw [auto_save_callback, h]
      split
      · rfl
      · simp
  · intro hv hn hr
    rw [auto_save_callback]
    rw [if_neg (by simp [hv, hn])]
    rw [if_neg (by simp [Option.isNone_iff_eq_none, hr])]

/-- Initial concrete listener state: an unnamed, valid, non-empty document
with no timer entry. -/
def s0 : LState := ⟨⟨none, "hello world".data, true⟩, none, 0, [], 0, 0⟩

/-- Concrete state after two edits in rapid succession: the entry created by
the first arm (ghost generation `0`) has been superseded by the second arm
(ghost generation `1`). -/
def s2 : LState := on_modified_async cSettings (on_modified_async cSettings s0)

/-- C3 counterexample: a callback whose own timer record was superseded by a
later edit still passes every check and invokes the pipeline.  In `s2` the
registered record is the second arm's (generation `1`), yet the first arm's
callback (generation `0`) runs the pipeline — the code checks only
`view_id in self.timers`, not record identity, so the claim as stated is
false. -/
theorem stale_callback_runs_cex :
    s2.registered = some 1 ∧ (1 : Nat) ≠ 0 ∧
    (auto_save_callback cEnv 0 s2).runs = s2.runs + 1 := by
  refine ⟨rfl, by decide, ?_⟩
  rfl

/-- Witness for C3 (amended) at concrete inputs: a failing check
(no registered entry) is a complete no-op, and with all checks passing the
pipeline is invoked. -/
theorem callback_guard_witness :
    auto_save_callback cEnv 0 s0 = s0 ∧
    (auto_save_callback cEnv 0 s2).runs = s2.runs + 1 :=
  ⟨(callback_guard cEnv 0 s0).1 (Or.inr (Or.inr rfl)),
    (callback_guard cEnv 0 s2).2 rfl rfl (by decide)⟩

/-- C4: starting from an unnamed document with no completed writes, arming
the debounce twice (a second edit before the first timer fires) and then
letting both scheduled callbacks run — in either order, under arbitrary
per-callback environments — produces at most one completed pipeline run,
hence at most one file write. -/
theorem debounce_at_most_one_write (st : Settings) (s : LState)
    (e1 e2 : Env) (g1 g2 : Nat) (hname : s.view.fileName = none)
    (hw : s.writes = 0) (htimer : 0 < st.auto_save_timer) :
    (auto_save_callback e2 g2 (auto_save_callback e1 g1
      (on_modified_async st (on_modified_async st s)))).writes ≤ 1 := by
  set t0 := on_modified_async st (on_modified_async st s) with ht0
  have hframe1 := on_modified_async_frame st s
  have hframe2 := on_modified_async_frame st (on_modified_async st s)
  have ht0w : t0.writes = 0 := by rw [ht0, hframe2.2.1, hframe1.2.1, hw]
  set t1 := auto_save_callback e1 g1 t0 with ht1
  rcases callback_step e1 g1 t0 with ⟨hA, _⟩ | ⟨hB, hBnamed⟩
  · rcases callback_step e2 g2 t1 with ⟨hC, _⟩ | ⟨hD, _⟩
    · rw [hC, ht1, hA, ht0w]; omega
    · rw [hD, ht1, hA, ht0w]
  · have hno : auto_save_callback e2 g2 t1 = t1 :=
      callback_named e2 g2 t1 (by rw [ht1]; exact hBnamed)
    rw [hno, ht1, hB, ht0w]

/-- Witness for C4 at concrete inputs: the double-armed concrete trace with
both callbacks fired ends with at most one write. -/
theorem debounce_at_most_one_write_witness :
    (auto_save_callback cEnv 1 (auto_save_callback cEnv 0
      (on_modified_async cSettings (on_modified_async cSettings s0)))).writes ≤ 1 :=
  debounce_at_most_one_write cSettings s0 cEnv cEnv 0 1 rfl rfl (by decide)

end AutoSave
